import Mathlib

/-!
# urho3dtest: camera control, start-up mode selection and debug hotkeys

A shallow embedding of `Source/Main.cpp` and `Source/Main.h`.

The application is glue code over the Urho3D engine.  The engine itself is an external
dependency, absent from the repository; the engine types and operations the application
uses are modelled in the namespace `Urho3D` below, each one marked as such.

C++ `float` values are represented by rational numbers.  Every float operation computes the
exact result and then rounds it with the rounding function of a `FloatModel`; infinities and
NaN are outside the model.  The theorems hold for every float model unless they say
otherwise; the samples use IEEE-754 single precision with round-to-nearest-even, the
arithmetic of the C++ type `float`, and exact arithmetic (no rounding).
-/

namespace Urho3D

/-! ## Float arithmetic -/

/-- Float arithmetic of the target, kept as a parameter: the rounding applied to the exact
result of an operation and the sine and cosine of half an angle given in degrees, which is
how the engine's `Quaternion::FromEulerAngles` uses `sinf` and `cosf` (on
`angle * M_DEGTORAD_2`). -/
structure FloatModel where
  round : ℚ → ℚ
  sinHalf : ℚ → ℚ
  cosHalf : ℚ → ℚ

namespace FloatModel

/-- Float addition. -/
def add (F : FloatModel) (a b : ℚ) : ℚ := F.round (a + b)

/-- Float subtraction. -/
def sub (F : FloatModel) (a b : ℚ) : ℚ := F.round (a - b)

/-- Float multiplication. -/
def mul (F : FloatModel) (a b : ℚ) : ℚ := F.round (a * b)

/-- Conversion of an `int` to `float`. -/
def ofInt (F : FloatModel) (i : ℤ) : ℚ := F.round (i : ℚ)

end FloatModel

/-- The power of two with an integer exponent. -/
def pow2 (e : ℤ) : ℚ :=
  if 0 ≤ e then ((2 ^ e.toNat : ℕ) : ℚ) else 1 / ((2 ^ (-e).toNat : ℕ) : ℚ)

/-- Rounding of a rational to the nearest integer, ties to the even one. -/
def roundHalfEven (q : ℚ) : ℤ :=
  let f : ℤ := q.num / (q.den : ℤ)
  let r : ℤ := q.num % (q.den : ℤ)
  if 2 * r < (q.den : ℤ) then f
  else if (q.den : ℤ) < 2 * r then f + 1
  else if f % 2 = 0 then f else f + 1

/-- The exponent of the binary32 binade of `q`: the largest `e` from `-126` to `127` with
`2 ^ e ≤ |q|`, and `-126` (the subnormal range) when there is none.  The search starts with
`k = 254`, that is at `e = 127`. -/
def binadeExponent (q : ℚ) : ℕ → ℤ
  | 0 => -126
  | k + 1 => if pow2 ((k : ℤ) - 126) ≤ |q| then (k : ℤ) - 126 else binadeExponent q k

/-- IEEE-754 single precision rounding (round to nearest, ties to even) of an exact result:
24 significant bits, gradual underflow below `2 ^ (-126)`.  Overflow is not modelled. -/
def binary32 (q : ℚ) : ℚ :=
  let ulp : ℚ := pow2 (binadeExponent q 254 - 23)
  (roundHalfEven (q / ulp) : ℚ) * ulp

/-! ## Vectors and quaternions (engine math library) -/

/-- Modelled from the spec: the engine type `Urho3D::IntVector2` of the mouse delta
`(dx, dy)`; the engine is not part of the repository. -/
structure IntVector2 where
  x_ : ℤ
  y_ : ℤ
  deriving DecidableEq

/-- Modelled from the spec: the engine type `Urho3D::Vector3` of positions and translations,
three floats. -/
structure Vector3 where
  x_ : ℚ
  y_ : ℚ
  z_ : ℚ
  deriving DecidableEq

/-- Modelled from the spec: the engine type `Urho3D::Quaternion` of orientations, four
floats. -/
structure Quaternion where
  w_ : ℚ
  x_ : ℚ
  y_ : ℚ
  z_ : ℚ
  deriving DecidableEq

namespace Vector3

/-- Modelled from the spec: the engine constant `Vector3::FORWARD`, the local forward axis. -/
def FORWARD : Vector3 := ⟨0, 0, 1⟩

/-- Modelled from the spec: the engine constant `Vector3::BACK`, the local back axis. -/
def BACK : Vector3 := ⟨0, 0, -1⟩

/-- Modelled from the spec: the engine constant `Vector3::LEFT`, the local left axis. -/
def LEFT : Vector3 := ⟨-1, 0, 0⟩

/-- Modelled from the spec: the engine constant `Vector3::RIGHT`, the local right axis. -/
def RIGHT : Vector3 := ⟨1, 0, 0⟩

/-- Modelled from the spec: the engine operation `Vector3 + Vector3`, the float sum of the
components. -/
def add (F : FloatModel) (a b : Vector3) : Vector3 :=
  ⟨F.add a.x_ b.x_, F.add a.y_ b.y_, F.add a.z_ b.z_⟩

/-- Modelled from the spec: the engine operation `Vector3 * float` (also `float * Vector3`,
which the engine defines as `rhs * lhs`), the float product of each component. -/
def scale (F : FloatModel) (a : Vector3) (s : ℚ) : Vector3 :=
  ⟨F.mul a.x_ s, F.mul a.y_ s, F.mul a.z_ s⟩

/-- Modelled from the spec: the engine operation `Vector3::CrossProduct`, used by the
rotation of a vector. -/
def CrossProduct (F : FloatModel) (a b : Vector3) : Vector3 :=
  ⟨F.sub (F.mul a.y_ b.z_) (F.mul a.z_ b.y_),
   F.sub (F.mul a.z_ b.x_) (F.mul a.x_ b.z_),
   F.sub (F.mul a.x_ b.y_) (F.mul a.y_ b.x_)⟩

/-- The opposite vector. -/
def neg (a : Vector3) : Vector3 := ⟨-a.x_, -a.y_, -a.z_⟩

/-- Every component of the vector is a float: rounding leaves it as it is. -/
def Representable (F : FloatModel) (a : Vector3) : Prop :=
  F.round a.x_ = a.x_ ∧ F.round a.y_ = a.y_ ∧ F.round a.z_ = a.z_

instance (F : FloatModel) (a : Vector3) : Decidable (a.Representable F) :=
  inferInstanceAs (Decidable (_ ∧ _ ∧ _))

/-- The float sum of the two vectors is exact: no component of the sum is rounded. -/
def SumExact (F : FloatModel) (a b : Vector3) : Prop :=
  F.round (a.x_ + b.x_) = a.x_ + b.x_ ∧ F.round (a.y_ + b.y_) = a.y_ + b.y_ ∧
    F.round (a.z_ + b.z_) = a.z_ + b.z_

instance (F : FloatModel) (a b : Vector3) : Decidable (a.SumExact F b) :=
  inferInstanceAs (Decidable (_ ∧ _ ∧ _))

end Vector3

namespace Quaternion

/-- Modelled from the spec: the engine operation `Quaternion(float x, float y, float z)`,
the rotation composed from Euler angles in degrees in the engine's fixed axis order
(`Quaternion::FromEulerAngles`). -/
def FromEulerAngles (F : FloatModel) (x y z : ℚ) : Quaternion :=
  let sinX := F.sinHalf x
  let cosX := F.cosHalf x
  let sinY := F.sinHalf y
  let cosY := F.cosHalf y
  let sinZ := F.sinHalf z
  let cosZ := F.cosHalf z
  { w_ := F.add (F.mul (F.mul cosY cosX) cosZ) (F.mul (F.mul sinY sinX) sinZ)
    x_ := F.add (F.mul (F.mul cosY sinX) cosZ) (F.mul (F.mul sinY cosX) sinZ)
    y_ := F.sub (F.mul (F.mul sinY cosX) cosZ) (F.mul (F.mul cosY sinX) sinZ)
    z_ := F.sub (F.mul (F.mul cosY cosX) sinZ) (F.mul (F.mul sinY sinX) cosZ) }

/-- Modelled from the spec: the engine operation `Quaternion * Vector3`, the orientation
applied to a local vector; the engine computes `rhs + 2.0f * (cross1 * w_ + cross2)`. -/
def rotate (F : FloatModel) (q : Quaternion) (rhs : Vector3) : Vector3 :=
  let qVec : Vector3 := ⟨q.x_, q.y_, q.z_⟩
  let cross1 := qVec.CrossProduct F rhs
  let cross2 := qVec.CrossProduct F cross1
  rhs.add F (((cross1.scale F q.w_).add F cross2).scale F 2)

end Quaternion

/-- Modelled from the spec: the engine operation `Urho3D::Clamp`, `value` limited to the
range from `min` to `max` by two comparisons. -/
def Clamp (value min max : ℚ) : ℚ :=
  if value < min then min
  else if value > max then max
  else value

/-- Modelled from the spec: the engine type `Urho3D::Node`, reduced to the transform
(position, orientation) the application touches and the presence of a `Camera` component. -/
structure Node where
  position_ : Vector3
  rotation_ : Quaternion
  camera : Bool
  deriving DecidableEq

namespace Node

/-- Modelled from the spec: the engine operation `Node::SetPosition`. -/
def SetPosition (n : Node) (position : Vector3) : Node := { n with position_ := position }

/-- Modelled from the spec: the engine operation `Node::SetRotation`. -/
def SetRotation (n : Node) (rotation : Quaternion) : Node := { n with rotation_ := rotation }

/-- Modelled from the spec: the engine operation `Node::TranslateRelative`, the translation
of the node along its own local axes, `position_ += rotation_ * delta`. -/
def TranslateRelative (F : FloatModel) (n : Node) (delta : Vector3) : Node :=
  { n with position_ := n.position_.add F (n.rotation_.rotate F delta) }

end Node

/-! ## Engine state reachable from the application -/

/-- The content of a file or of a resource. -/
abbrev Bytes := List ℕ

/-- Modelled from the spec: the engine type `Urho3D::Variant`, reduced to the two kinds of
engine parameter stored by the application. -/
inductive Variant where
  | string (value : String)
  | bool (value : Bool)
  deriving DecidableEq

/-- Modelled from the spec: the engine calls made by the application whose effect lies
inside the engine.  They are recorded in the order in which they are made. -/
inductive Call where
  | RegisterScriptSubsystem
  | CreateConsole
  | SetDefaultStyle
  | SubscribeUpdate
  | SubscribeKeyDown
  | EditorNew
  | EditorStart
  | EditorStop
  | ScriptExecute (declaration : String)
  | SceneNew
  | NodeNew
  | CreateCamera
  | ViewportNew
  | SetViewport
  | EngineExit
  | ConsoleToggle
  | FileOpenWrite (fileName : String)
  | FileOpenRead (fileName : String)
  | SceneLoadXML
  | SceneSave
  | SceneLoad
  deriving DecidableEq

/-- Modelled from the spec: the part of the engine `Context` and of the process environment
the application reads and writes: process arguments, the resource cache (`none` for a
resource that does not load), the program directory, the file system, the console
subsystem (`none` until it is created, then its visibility) and the record of engine
calls. -/
structure Context where
  arguments : List String
  resources : String → Option Bytes
  programDir : String
  files : String → Option Bytes
  console : Option Bool
  calls : List Call

namespace Context

/-- Appends an engine call to the record. -/
def record (c : Context) (call : Call) : Context := { c with calls := c.calls ++ [call] }

/-- Replaces the content of a file. -/
def writeFile (c : Context) (fileName : String) (content : Bytes) : Context :=
  { c with files := fun n => if n = fileName then some content else c.files n }

end Context

/-- Modelled from the spec: the `Input` and `UI` subsystems as sampled during one event:
whether the UI has a focused element, the mouse motion since the last frame and the keys
held. -/
structure Input where
  focusElement : Bool
  mouseMove : IntVector2
  keyDown : ℤ → Bool

/-- Modelled from the spec: the engine operations on `Urho3D::Scene`, whose content the
application never inspects, kept as parameters: the empty scene made by
`new Scene(context_)`, `Scene::LoadXML`, the bytes written by `Scene::Save` and
`Scene::Load` from a file (`none` for a file that could not be opened). -/
structure SceneModel (Scene : Type) where
  empty : Scene
  LoadXML : Scene → Bytes → Scene
  Save : Scene → Bytes
  Load : Scene → Option Bytes → Scene

/-- Key code `'A'`; the key code of a letter is its upper case character. -/
def KEY_A : ℤ := 65
/-- Key code `'D'`. -/
def KEY_D : ℤ := 68
/-- Key code `'Q'`. -/
def KEY_Q : ℤ := 81
/-- Key code `'R'`. -/
def KEY_R : ℤ := 82
/-- Key code `'S'`. -/
def KEY_S : ℤ := 83
/-- Key code `'W'`. -/
def KEY_W : ℤ := 87
/-- Modelled from the spec: the engine constant `Urho3D::KEY_F3`, with the value of
`SDLK_F3`.  Of the three function key codes only their being different from each other and
from the letters is used. -/
def KEY_F3 : ℤ := 1073741884
/-- Modelled from the spec: the engine constant `Urho3D::KEY_F6`, with the value of
`SDLK_F6`. -/
def KEY_F6 : ℤ := 1073741887
/-- Modelled from the spec: the engine constant `Urho3D::KEY_F7`, with the value of
`SDLK_F7`. -/
def KEY_F7 : ℤ := 1073741888

end Urho3D

open Urho3D

/-! ## The application (`Source/Main.cpp`) -/

/-- What a handler does when it goes through a null pointer. -/
inductive Fault where
  | nullDereference
  deriving DecidableEq

/-- Class `Editor`: the loaded editor script, `none` for a null `editorScript_`. -/
structure Editor where
  editorScript_ : Option Bytes
  deriving DecidableEq

namespace Editor

/-- `Editor::Start`. -/
def Start (c : Context) (e : Editor) : Context × Editor :=
  let c := c.record Call.EditorStart
  let e := { e with editorScript_ := c.resources "Scripts/Editor.as" }
  match e.editorScript_ with
  | some _ => (c.record (Call.ScriptExecute "void Start()"), e)
  | none => (c, e)

/-- `Editor::Stop`. -/
def Stop (c : Context) (e : Editor) : Context :=
  let c := c.record Call.EditorStop
  match e.editorScript_ with
  | some _ => c.record (Call.ScriptExecute "void Stop()")
  | none => c

end Editor

/-- Class `Main`: the members declared in `Main.h` and the `engineParameters_` of the
`Application` base class.  A null shared pointer is `none`. -/
structure Main (Scene : Type) where
  engineParameters_ : List (String × Variant)
  launchEditor_ : Bool
  editor_ : Option Editor
  scene_ : Option Scene
  cameraNode_ : Option Node
  yaw_ : ℚ
  pitch_ : ℚ

namespace Main

variable {Scene : Type}

/-- The object left by the constructor `Main::Main`: the shared pointers are null; the
constructor does not initialise `launchEditor_`, `yaw_` and `pitch_`, whose values are
therefore arbitrary. -/
def new (launchEditor : Bool) (yaw pitch : ℚ) : Main Scene :=
  { engineParameters_ := []
    launchEditor_ := launchEditor
    editor_ := none
    scene_ := none
    cameraNode_ := none
    yaw_ := yaw
    pitch_ := pitch }

/-- Assignment `engineParameters_[key] = value`. -/
def setParameter (m : Main Scene) (key : String) (value : Variant) : Main Scene :=
  { m with engineParameters_ := (key, value) :: m.engineParameters_.filter (fun p => p.1 ≠ key) }

/-- `GetTypeName()` of class `Main`. -/
def typeName : String := "Main"

/-- `Main::Setup`. -/
def Setup (c : Context) (m : Main Scene) : Main Scene :=
  let m := { m with launchEditor_ := false }
  let m := m.setParameter "WindowTitle" (Variant.string typeName)
  let m := m.setParameter "LogName" (Variant.string (typeName ++ ".log"))
  let m := m.setParameter "FullScreen" (Variant.bool false)
  let m := m.setParameter "Headless" (Variant.bool false)
  c.arguments.foldl (fun m argument =>
    if argument = "-edit" then { m with launchEditor_ := true } else m) m

/-- `Main::Start`. -/
def Start (E : SceneModel Scene) (c : Context) (m : Main Scene) : Context × Main Scene :=
  let c := c.record Call.RegisterScriptSubsystem
  match c.resources "UI/DefaultStyle.xml" with
  | none => (c, m)
  | some _ =>
    let c := { c.record Call.CreateConsole with console := some false }
    let c := c.record Call.SetDefaultStyle
    let c := c.record Call.SubscribeUpdate
    let c := c.record Call.SubscribeKeyDown
    if m.launchEditor_ then
      let c := c.record Call.EditorNew
      let (c, editor) := Editor.Start c { editorScript_ := none }
      (c, { m with editor_ := some editor })
    else
      let c := c.record Call.SceneNew
      let m := { m with scene_ := some E.empty }
      let c := c.record Call.NodeNew
      let node : Node := { position_ := ⟨0, 0, 0⟩, rotation_ := ⟨1, 0, 0, 0⟩, camera := false }
      let c := c.record Call.CreateCamera
      let node := { node with camera := true }
      let node := node.SetPosition ⟨0, 5, 0⟩
      let m := { m with cameraNode_ := some node }
      let c := c.record Call.ViewportNew
      let c := c.record Call.SetViewport
      (c, m)

/-- `Main::Stop`. -/
def Stop (c : Context) (m : Main Scene) : Context :=
  match m.editor_ with
  | some editor => editor.Stop c
  | none => c

/-- Constant `MOVE_SPEED` of `Main::MoveCamera`, `20.0f`. -/
def MOVE_SPEED : ℚ := 20

/-- Constant `MOUSE_SENSITIVITY` of `Main::MoveCamera`, the float literal `0.1f`. -/
def MOUSE_SENSITIVITY (F : FloatModel) : ℚ := F.round (1 / 10)

/-- `Main::MoveCamera`. -/
def MoveCamera (F : FloatModel) (input : Input) (m : Main Scene) (dt : ℚ) : Main Scene :=
  match m.cameraNode_ with
  | none => m
  | some node =>
    if input.focusElement then m
    else
      let mouseMove := input.mouseMove
      let yaw := F.add m.yaw_ (F.mul (MOUSE_SENSITIVITY F) (F.ofInt mouseMove.x_))
      let pitch := F.add m.pitch_ (F.mul (MOUSE_SENSITIVITY F) (F.ofInt mouseMove.y_))
      let pitch := Clamp pitch (-90) 90
      let node := node.SetRotation (Quaternion.FromEulerAngles F pitch yaw 0)
      let node := if input.keyDown KEY_W then
        node.TranslateRelative F (Vector3.FORWARD.scale F (F.mul dt MOVE_SPEED)) else node
      let node := if input.keyDown KEY_S then
        node.TranslateRelative F (Vector3.BACK.scale F (F.mul dt MOVE_SPEED)) else node
      let node := if input.keyDown KEY_A then
        node.TranslateRelative F (Vector3.LEFT.scale F (F.mul dt MOVE_SPEED)) else node
      let node := if input.keyDown KEY_D then
        node.TranslateRelative F (Vector3.RIGHT.scale F (F.mul dt MOVE_SPEED)) else node
      { m with yaw_ := yaw, pitch_ := pitch, cameraNode_ := some node }

/-- The orientation `Main::MoveCamera` gives to the camera node: the rotation composed from
the updated pitch and yaw and roll zero. -/
def lookRotation (F : FloatModel) (input : Input) (m : Main Scene) : Quaternion :=
  Quaternion.FromEulerAngles F
    (Clamp (F.add m.pitch_ (F.mul (MOUSE_SENSITIVITY F) (F.ofInt input.mouseMove.y_))) (-90) 90)
    (F.add m.yaw_ (F.mul (MOUSE_SENSITIVITY F) (F.ofInt input.mouseMove.x_))) 0

/-- The translation `Main::MoveCamera` adds to the camera position for a held key with the
given local axis: the new orientation applied to `dt * MOVE_SPEED * axis`. -/
def keyTranslation (F : FloatModel) (input : Input) (m : Main Scene) (dt : ℚ)
    (axis : Vector3) : Vector3 :=
  (lookRotation F input m).rotate F (axis.scale F (F.mul dt MOVE_SPEED))

/-- `Main::Update`, the per-frame handler; `timeStep` is the `P_TIMESTEP` of the event. -/
def Update (F : FloatModel) (input : Input) (m : Main Scene) (timeStep : ℚ) : Main Scene :=
  MoveCamera F input m timeStep

/-- The save file of the quicksave and quickload keys. -/
def saveFileName (c : Context) : String := c.programDir ++ "/Usr/sav.sav"

/-- `Main::KeyDown`, the key-down handler; `key` is the `P_KEY` of the event. -/
def KeyDown (E : SceneModel Scene) (c : Context) (m : Main Scene) (key : ℤ) :
    Except Fault (Context × Main Scene) :=
  if key = KEY_Q then
    .ok (c.record Call.EngineExit, m)
  else if key = KEY_R then
    if !m.launchEditor_ then
      match c.resources "Data/Scenes/Physics.xml", m.scene_ with
      | some file, some scene =>
        .ok (c.record Call.SceneLoadXML, { m with scene_ := some (E.LoadXML scene file) })
      | _, _ => .error Fault.nullDereference
    else .ok (c, m)
  else if key = KEY_F3 then
    match c.console with
    | some visible => .ok ({ c.record Call.ConsoleToggle with console := some (!visible) }, m)
    | none => .error Fault.nullDereference
  else if key = KEY_F6 then
    let c := (c.record (Call.FileOpenWrite (saveFileName c))).writeFile (saveFileName c) []
    match m.scene_ with
    | some scene => .ok ((c.record Call.SceneSave).writeFile (saveFileName c) (E.Save scene), m)
    | none => .error Fault.nullDereference
  else if key = KEY_F7 then
    let c := c.record (Call.FileOpenRead (saveFileName c))
    match m.scene_ with
    | some scene =>
      .ok (c.record Call.SceneLoad, { m with scene_ := some (E.Load scene (c.files (saveFileName c))) })
    | none => .error Fault.nullDereference
  else .ok (c, m)

/-- An event dispatched to the two handlers subscribed by `Main::Start`. -/
inductive Event where
  | update (input : Input) (timeStep : ℚ)
  | keyDown (key : ℤ)

/-- Dispatch of one event to its handler. -/
def handle (E : SceneModel Scene) (F : FloatModel) (state : Context × Main Scene) :
    Event → Except Fault (Context × Main Scene)
  | Event.update input timeStep => .ok (state.1, Update F input state.2 timeStep)
  | Event.keyDown key => KeyDown E state.1 state.2 key

/-- The run loop over a sequence of events; it ends at the first fault. -/
def runEvents (E : SceneModel Scene) (F : FloatModel) :
    List Event → Context × Main Scene → Except Fault (Context × Main Scene)
  | [], state => .ok state
  | event :: events, state =>
    match handle E F state event with
    | .ok state => runEvents E F events state
    | .error fault => .error fault

/-- Whether a call belongs to the editor delegate: its construction, its start and stop
hooks and the script entry points they execute. -/
def isEditorCall : Call → Bool
  | Call.EditorNew => true
  | Call.EditorStart => true
  | Call.EditorStop => true
  | Call.ScriptExecute _ => true
  | _ => false

/-- Whether a call constructs part of the play-mode object graph: the scene, the camera
node with its camera, the viewport. -/
def isPlayConstruction : Call → Bool
  | Call.SceneNew => true
  | Call.NodeNew => true
  | Call.CreateCamera => true
  | Call.ViewportNew => true
  | Call.SetViewport => true
  | _ => false

/-- The calls recorded in `c'` are those of `c` followed by calls none of which satisfies
`p`. -/
def ExtendsWithout (p : Call → Bool) (c c' : Context) : Prop :=
  ∃ made : List Call, c'.calls = c.calls ++ made ∧ ∀ call ∈ made, p call = false

end Main

/-! ## Sample data -/

namespace Sample

/-- A stand-in for `sinf` of half an angle in degrees: the cubic Taylor polynomial, rounded
to single precision.  It is exact at angle `0`, the angle of the single precision samples. -/
def sinHalf (x : ℚ) : ℚ :=
  let t := x * (355 / 113) / 360
  binary32 (t - t ^ 3 / 6)

/-- A stand-in for `cosf` of half an angle in degrees, exact at angle `0`. -/
def cosHalf (x : ℚ) : ℚ :=
  let t := x * (355 / 113) / 360
  binary32 (1 - t ^ 2 / 2)

/-- Single precision float arithmetic. -/
def single : FloatModel := { round := binary32, sinHalf := sinHalf, cosHalf := cosHalf }

/-- Exact arithmetic: no operation rounds. -/
def exact : FloatModel := { round := id, sinHalf := sinHalf, cosHalf := cosHalf }

/-- A scene engine over scenes that are lists of entity numbers, saved as they are. -/
def sceneModel : SceneModel (List ℕ) :=
  { empty := []
    LoadXML := fun _ file => file
    Save := fun scene => scene
    Load := fun scene file => file.getD scene }

/-- An environment with the given arguments in which every resource exists and no file. -/
def context (arguments : List String) : Context :=
  { arguments := arguments
    resources := fun _ => some [1, 2, 3]
    programDir := "/opt/game"
    files := fun _ => none
    console := none
    calls := [] }

/-- An environment in which no resource exists. -/
def bareContext (arguments : List String) : Context :=
  { context arguments with resources := fun _ => none }

/-- An environment with the UI style but without the reload scene. -/
def styleOnlyContext : Context :=
  { context [] with resources := fun name => if name = "UI/DefaultStyle.xml" then some [] else none }

/-- Input with the given focus state, mouse motion and held keys. -/
def input (focus : Bool) (dx dy : ℤ) (keys : List ℤ) : Input :=
  { focusElement := focus, mouseMove := ⟨dx, dy⟩, keyDown := fun k => decide (k ∈ keys) }

/-- The application object after `Main::Setup` in the given environment. -/
def configured (c : Context) : Main (List ℕ) := Main.Setup c (Main.new true 400 1000)

/-- The application object after `Main::Setup` and `Main::Start` in the given environment. -/
def started (c : Context) : Context × Main (List ℕ) :=
  Main.Start sceneModel c (configured c)

/-- The application started in play mode, with yaw and pitch zero and the camera moved to
the given position, looking forward. -/
def cameraAt (position : Vector3) : Main (List ℕ) :=
  { (started (context [])).2 with
    cameraNode_ := some { position_ := position, rotation_ := ⟨1, 0, 0, 0⟩, camera := true }
    yaw_ := 0
    pitch_ := 0 }

end Sample

/-! ## Camera look: the pitch clamp and the focus guard -/

section Camera

variable {Scene : Type}

/-- C2: whatever the time step, the mouse motion and the held keys, with a focused UI
element `Main::MoveCamera` and the per-frame handler `Main::Update` leave the application
object unchanged: camera node position and orientation, stored yaw and pitch. -/
theorem C2_focus_freezes_camera (F : FloatModel) (input : Input) (m : Main Scene) (dt : ℚ)
    (hfocus : input.focusElement = true) :
    Main.MoveCamera F input m dt = m ∧ Main.Update F input m dt = m ∧
      (Main.Update F input m dt).cameraNode_ = m.cameraNode_ ∧
      (Main.Update F input m dt).yaw_ = m.yaw_ ∧ (Main.Update F input m dt).pitch_ = m.pitch_ := by
  have h : Main.MoveCamera F input m dt = m := by
    unfold Main.MoveCamera
    cases m.cameraNode_ with
    | none => rfl
    | some node => simp [hfocus]
  have h' : Main.Update F input m dt = m := h
  exact ⟨h, h', by rw [h'], by rw [h'], by rw [h']⟩

end Camera

/-- C2 at a sample: with the console focused, a frame with mouse motion and `W`, `D` held
leaves the started play-mode application as it was. -/
theorem C2_focus_freezes_camera_witness :
    Main.MoveCamera Sample.single (Sample.input true 12 (-7) [KEY_W, KEY_D])
        (Sample.started (Sample.context [])).2 (1 / 64) = (Sample.started (Sample.context [])).2 ∧
      Main.Update Sample.single (Sample.input true 12 (-7) [KEY_W, KEY_D])
        (Sample.started (Sample.context [])).2 (1 / 64) = (Sample.started (Sample.context [])).2 ∧
      (Main.Update Sample.single (Sample.input true 12 (-7) [KEY_W, KEY_D])
        (Sample.started (Sample.context [])).2 (1 / 64)).cameraNode_
          = (Sample.started (Sample.context [])).2.cameraNode_ ∧
      (Main.Update Sample.single (Sample.input true 12 (-7) [KEY_W, KEY_D])
        (Sample.started (Sample.context [])).2 (1 / 64)).yaw_
          = (Sample.started (Sample.context [])).2.yaw_ ∧
      (Main.Update Sample.single (Sample.input true 12 (-7) [KEY_W, KEY_D])
        (Sample.started (Sample.context [])).2 (1 / 64)).pitch_
          = (Sample.started (Sample.context [])).2.pitch_ :=
  C2_focus_freezes_camera Sample.single (Sample.input true 12 (-7) [KEY_W, KEY_D])
    (Sample.started (Sample.context [])).2 (1 / 64) rfl

/-! ## Start-up: mode selection, the style guard, the two object graphs -/

section Startup

variable {Scene : Type}

/-- The argument loop of `Main::Setup` keeps a set flag and sets it at `-edit`. -/
theorem Main.Setup_loop (arguments : List String) (m : Main Scene) :
    (arguments.foldl (fun (m : Main Scene) argument =>
        if argument = "-edit" then { m with launchEditor_ := true } else m) m).launchEditor_ = true
      ↔ m.launchEditor_ = true ∨ "-edit" ∈ arguments := by
  induction arguments generalizing m with
  | nil => simp
  | cons a rest ih =>
    rw [List.foldl_cons, ih]
    by_cases ha : a = "-edit"
    · simp [ha]
    · have hne : ¬ "-edit" = a := fun h => ha h.symm
      simp [ha, hne]

/-- After `Main::Setup` the mode flag is set exactly when `-edit` is among the arguments. -/
theorem Main.Setup_launchEditor (c : Context) (m : Main Scene) :
    (Main.Setup c m).launchEditor_ = true ↔ "-edit" ∈ c.arguments := by
  unfold Main.Setup
  simp only [Main.Setup_loop]
  simp [Main.setParameter]

/-- C5: after `Main::Setup` the mode flag is set exactly when some process argument equals
the string `-edit`; hence the flag is the same for two argument lists that agree on whether
`-edit` occurs in them, whatever their other arguments, the positions and the repetitions. -/
theorem C5_edit_flag (c : Context) (m : Main Scene) :
    ((Main.Setup c m).launchEditor_ = true ↔ "-edit" ∈ c.arguments) ∧
    (∀ (c' : Context) (m' : Main Scene), ("-edit" ∈ c.arguments ↔ "-edit" ∈ c'.arguments) →
      (Main.Setup c m).launchEditor_ = (Main.Setup c' m').launchEditor_) := by
  refine ⟨Main.Setup_launchEditor c m, ?_⟩
  intro c' m' h
  cases h1 : (Main.Setup c m).launchEditor_ <;> cases h2 : (Main.Setup c' m').launchEditor_
  · rfl
  · exact absurd ((Main.Setup_launchEditor c m).mpr (h.mpr ((Main.Setup_launchEditor c' m').mp h2)))
      (by simp [h1])
  · exact absurd ((Main.Setup_launchEditor c' m').mpr (h.mp ((Main.Setup_launchEditor c m).mp h1)))
      (by simp [h2])
  · rfl

/-- Arguments that differ from `-edit` in case, or are a prefix or an extension of it, leave
the flag unset; a repeated or late `-edit` sets it. -/
theorem Main.Setup_samples :
    (Main.Setup (Sample.context ["-Edit", "-EDIT", "-edi", "-edits", "edit", " -edit", "--edit"])
        (Main.new true 0 0 : Main (List ℕ))).launchEditor_ = false ∧
    (Main.Setup (Sample.context ["-w", "-edit", "-x", "-edit"])
        (Main.new false 0 0 : Main (List ℕ))).launchEditor_ = true := by
  constructor <;> decide

/-- C8: for either value of the mode flag, when the UI default style does not load,
`Main::Start` only registers the script subsystem and returns: no console, no scene, no
camera node, no viewport and no editor delegate is created, the per-frame and key-down
handlers are not subscribed, and the editor start hook is not invoked. -/
theorem C8_missing_style_aborts_start (E : SceneModel Scene) (c : Context) (m : Main Scene)
    (hstyle : c.resources "UI/DefaultStyle.xml" = none) :
    (Main.Start E c m).2 = m ∧
      (Main.Start E c m).2.scene_ = m.scene_ ∧
      (Main.Start E c m).2.cameraNode_ = m.cameraNode_ ∧
      (Main.Start E c m).2.editor_ = m.editor_ ∧
      (Main.Start E c m).1.console = c.console ∧
      (Main.Start E c m).1.calls = c.calls ++ [Call.RegisterScriptSubsystem] := by
  have h : Main.Start E c m = (c.record Call.RegisterScriptSubsystem, m) := by
    unfold Main.Start
    have : (c.record Call.RegisterScriptSubsystem).resources "UI/DefaultStyle.xml" = none := hstyle
    simp only [this]
  rw [h]
  exact ⟨rfl, rfl, rfl, rfl, rfl, rfl⟩

/-- C8 at a sample: started with `-edit` in an environment without resources, the
application has made the script subsystem registration and nothing else. -/
theorem C8_missing_style_aborts_start_witness :
    (Sample.started (Sample.bareContext ["-edit"])).2
        = Sample.configured (Sample.bareContext ["-edit"]) ∧
      (Sample.started (Sample.bareContext ["-edit"])).2.scene_
        = (Sample.configured (Sample.bareContext ["-edit"])).scene_ ∧
      (Sample.started (Sample.bareContext ["-edit"])).2.cameraNode_
        = (Sample.configured (Sample.bareContext ["-edit"])).cameraNode_ ∧
      (Sample.started (Sample.bareContext ["-edit"])).2.editor_
        = (Sample.configured (Sample.bareContext ["-edit"])).editor_ ∧
      (Sample.started (Sample.bareContext ["-edit"])).1.console
        = (Sample.bareContext ["-edit"]).console ∧
      (Sample.started (Sample.bareContext ["-edit"])).1.calls
        = (Sample.bareContext ["-edit"]).calls ++ [Call.RegisterScriptSubsystem] :=
  C8_missing_style_aborts_start Sample.sceneModel (Sample.bareContext ["-edit"])
    (Sample.configured (Sample.bareContext ["-edit"])) rfl

/-- Recording one call that does not satisfy `p`. -/
theorem Main.ExtendsWithout.record {p : Call → Bool} {c c' : Context} (call : Call)
    (h : Main.ExtendsWithout p c c') (hcall : p call = false) :
    Main.ExtendsWithout p c (c'.record call) := by
  obtain ⟨made, hmade, hnone⟩ := h
  refine ⟨made ++ [call], ?_, ?_⟩
  · simp [Context.record, hmade]
  · intro x hx
    rcases List.mem_append.mp hx with hx | hx
    · exact hnone x hx
    · rw [List.mem_singleton.mp hx]
      exact hcall

/-- No call at all. -/
theorem Main.ExtendsWithout.refl (p : Call → Bool) (c : Context) : Main.ExtendsWithout p c c :=
  ⟨[], by simp, by simp⟩

/-- A change of the environment that keeps the record of calls. -/
theorem Main.ExtendsWithout.of_calls_eq {p : Call → Bool} {c c' : Context}
    (h : Main.ExtendsWithout p c c') (c'' : Context) (heq : c''.calls = c'.calls) :
    Main.ExtendsWithout p c c'' := by
  obtain ⟨made, hmade, hnone⟩ := h
  exact ⟨made, by rw [heq, hmade], hnone⟩

/-- `Main::Setup` touches the mode flag and the engine parameters only. -/
theorem Main.Setup_pointers (c : Context) (m : Main Scene) :
    (Main.Setup c m).editor_ = m.editor_ ∧ (Main.Setup c m).scene_ = m.scene_ ∧
      (Main.Setup c m).cameraNode_ = m.cameraNode_ := by
  unfold Main.Setup
  have loop : ∀ (arguments : List String) (m : Main Scene),
      (arguments.foldl (fun (m : Main Scene) argument =>
        if argument = "-edit" then { m with launchEditor_ := true } else m) m).editor_ = m.editor_ ∧
      (arguments.foldl (fun (m : Main Scene) argument =>
        if argument = "-edit" then { m with launchEditor_ := true } else m) m).scene_ = m.scene_ ∧
      (arguments.foldl (fun (m : Main Scene) argument =>
        if argument = "-edit" then { m with launchEditor_ := true } else m) m).cameraNode_
          = m.cameraNode_ := by
    intro arguments
    induction arguments with
    | nil => intro m; exact ⟨rfl, rfl, rfl⟩
    | cons a rest ih =>
      intro m
      rw [List.foldl_cons]
      by_cases ha : a = "-edit"
      · simpa [ha] using ih { m with launchEditor_ := true }
      · simpa [ha] using ih m
  simpa [Main.setParameter] using loop c.arguments _

/-- `Main::Start` when the UI default style does not load. -/
theorem Main.Start_no_style (E : SceneModel Scene) (c : Context) (m : Main Scene)
    (hstyle : c.resources "UI/DefaultStyle.xml" = none) :
    Main.Start E c m = (c.record Call.RegisterScriptSubsystem, m) := by
  have h : (c.record Call.RegisterScriptSubsystem).resources "UI/DefaultStyle.xml" = none := hstyle
  simp only [Main.Start, h]

/-- `Main::Start` in editor mode when the UI default style loads. -/
theorem Main.Start_editor (E : SceneModel Scene) (c : Context) (m : Main Scene) (style : Bytes)
    (hstyle : c.resources "UI/DefaultStyle.xml" = some style) (hedit : m.launchEditor_ = true) :
    Main.Start E c m =
      ((Editor.Start ((((({ (c.record Call.RegisterScriptSubsystem).record Call.CreateConsole with
          console := some false }).record Call.SetDefaultStyle).record
          Call.SubscribeUpdate).record Call.SubscribeKeyDown).record Call.EditorNew)
          { editorScript_ := none }).1,
       { m with editor_ := some (Editor.Start ((((({ (c.record
          Call.RegisterScriptSubsystem).record Call.CreateConsole with
          console := some false }).record Call.SetDefaultStyle).record
          Call.SubscribeUpdate).record Call.SubscribeKeyDown).record Call.EditorNew)
          { editorScript_ := none }).2 }) := by
  have h : (c.record Call.RegisterScriptSubsystem).resources "UI/DefaultStyle.xml"
      = some style := hstyle
  simp only [Main.Start, h, hedit, if_true]

/-- `Main::Start` in play mode when the UI default style loads. -/
theorem Main.Start_play (E : SceneModel Scene) (c : Context) (m : Main Scene) (style : Bytes)
    (hstyle : c.resources "UI/DefaultStyle.xml" = some style) (hplay : m.launchEditor_ = false) :
    Main.Start E c m =
      ((((((((({ (c.record Call.RegisterScriptSubsystem).record Call.CreateConsole with
          console := some false }).record Call.SetDefaultStyle).record
          Call.SubscribeUpdate).record Call.SubscribeKeyDown).record Call.SceneNew).record
          Call.NodeNew).record Call.CreateCamera).record Call.ViewportNew).record Call.SetViewport,
       { m with
          scene_ := some E.empty
          cameraNode_ := some
            { position_ := ⟨0, 5, 0⟩, rotation_ := ⟨1, 0, 0, 0⟩, camera := true } }) := by
  have h : (c.record Call.RegisterScriptSubsystem).resources "UI/DefaultStyle.xml"
      = some style := hstyle
  simp only [Main.Start, h, hplay, Node.SetPosition]
  rfl

/-- In editor mode `Main::Start` leaves the scene and camera node pointers alone and makes
no call that constructs a scene, a node, a camera or a viewport. -/
theorem Main.Start_editor_mode (E : SceneModel Scene) (c : Context) (m : Main Scene)
    (hedit : m.launchEditor_ = true) :
    (Main.Start E c m).2.scene_ = m.scene_ ∧ (Main.Start E c m).2.cameraNode_ = m.cameraNode_ ∧
      Main.ExtendsWithout Main.isPlayConstruction c (Main.Start E c m).1 := by
  cases hstyle : c.resources "UI/DefaultStyle.xml" with
  | none =>
    rw [Main.Start_no_style E c m hstyle]
    exact ⟨rfl, rfl, (Main.ExtendsWithout.refl _ c).record _ rfl⟩
  | some style =>
    rw [Main.Start_editor E c m style hstyle hedit]
    refine ⟨rfl, rfl, ?_⟩
    have h1 := ((((((Main.ExtendsWithout.refl Main.isPlayConstruction c).record
      Call.RegisterScriptSubsystem rfl).record Call.CreateConsole rfl).of_calls_eq
      { (c.record Call.RegisterScriptSubsystem).record Call.CreateConsole with
          console := some false } rfl).record
      Call.SetDefaultStyle rfl).record Call.SubscribeUpdate rfl).record Call.SubscribeKeyDown rfl
    have h2 := (h1.record Call.EditorNew rfl).record Call.EditorStart rfl
    simp only [Editor.Start]
    split
    · exact (h2.record (Call.ScriptExecute "void Start()") rfl).of_calls_eq _ rfl
    · exact h2.of_calls_eq _ rfl

/-- In play mode `Main::Start` leaves the editor pointer alone and makes no editor call. -/
theorem Main.Start_play_mode (E : SceneModel Scene) (c : Context) (m : Main Scene)
    (hplay : m.launchEditor_ = false) :
    (Main.Start E c m).2.editor_ = m.editor_ ∧
      Main.ExtendsWithout Main.isEditorCall c (Main.Start E c m).1 := by
  cases hstyle : c.resources "UI/DefaultStyle.xml" with
  | none =>
    rw [Main.Start_no_style E c m hstyle]
    exact ⟨rfl, (Main.ExtendsWithout.refl _ c).record _ rfl⟩
  | some style =>
    rw [Main.Start_play E c m style hstyle hplay]
    refine ⟨rfl, ?_⟩
    have h1 := ((((((Main.ExtendsWithout.refl Main.isEditorCall c).record
      Call.RegisterScriptSubsystem rfl).record Call.CreateConsole rfl).of_calls_eq
      { (c.record Call.RegisterScriptSubsystem).record Call.CreateConsole with
          console := some false } rfl).record
      Call.SetDefaultStyle rfl).record Call.SubscribeUpdate rfl).record Call.SubscribeKeyDown rfl
    exact ((((h1.record Call.SceneNew rfl).record Call.NodeNew rfl).record
      Call.CreateCamera rfl).record Call.ViewportNew rfl).record Call.SetViewport rfl

/-- The camera update never touches the editor pointer. -/
theorem Main.MoveCamera_editor (F : FloatModel) (input : Input) (m : Main Scene) (dt : ℚ) :
    (Main.MoveCamera F input m dt).editor_ = m.editor_ := by
  unfold Main.MoveCamera
  cases m.cameraNode_ with
  | none => rfl
  | some node => cases input.focusElement <;> rfl

/-- A handled event leaves the editor pointer alone and makes no editor call. -/
theorem Main.handle_editor (E : SceneModel Scene) (F : FloatModel) (c0 : Context)
    (state state' : Context × Main Scene) (event : Main.Event)
    (h : Main.handle E F state event = .ok state')
    (hcalls : Main.ExtendsWithout Main.isEditorCall c0 state.1) :
    state'.2.editor_ = state.2.editor_ ∧ Main.ExtendsWithout Main.isEditorCall c0 state'.1 := by
  cases event with
  | update input timeStep =>
    simp only [Main.handle, Except.ok.injEq] at h
    subst h
    exact ⟨Main.MoveCamera_editor F input state.2 timeStep, hcalls⟩
  | keyDown key =>
    simp only [Main.handle, Main.KeyDown] at h
    split_ifs at h with hq hr hedit h3 h6 h7
    · simp only [Except.ok.injEq] at h
      subst h
      exact ⟨rfl, hcalls.record _ rfl⟩
    · split at h
      · simp only [Except.ok.injEq] at h
        subst h
        exact ⟨rfl, hcalls.record _ rfl⟩
      · exact absurd h (by simp)
    · simp only [Except.ok.injEq] at h
      subst h
      exact ⟨rfl, hcalls⟩
    · split at h
      · simp only [Except.ok.injEq] at h
        subst h
        exact ⟨rfl, (hcalls.record Call.ConsoleToggle rfl).of_calls_eq _ rfl⟩
      · exact absurd h (by simp)
    · split at h
      · simp only [Except.ok.injEq] at h
        subst h
        exact ⟨rfl, (((hcalls.record (Call.FileOpenWrite _) rfl).of_calls_eq
          ((state.1.record (Call.FileOpenWrite (Main.saveFileName state.1))).writeFile
            (Main.saveFileName state.1) []) rfl).record Call.SceneSave rfl).of_calls_eq _ rfl⟩
      · exact absurd h (by simp)
    · split at h
      · simp only [Except.ok.injEq] at h
        subst h
        exact ⟨rfl, (hcalls.record (Call.FileOpenRead _) rfl).record Call.SceneLoad rfl⟩
      · exact absurd h (by simp)
    · simp only [Except.ok.injEq] at h
      subst h
      exact ⟨rfl, hcalls⟩

/-- A run of events leaves the editor pointer alone and makes no editor call. -/
theorem Main.runEvents_editor (E : SceneModel Scene) (F : FloatModel) (c0 : Context)
    (events : List Main.Event) (state state' : Context × Main Scene)
    (h : Main.runEvents E F events state = .ok state')
    (hcalls : Main.ExtendsWithout Main.isEditorCall c0 state.1) :
    state'.2.editor_ = state.2.editor_ ∧ Main.ExtendsWithout Main.isEditorCall c0 state'.1 := by
  induction events generalizing state with
  | nil =>
    simp only [Main.runEvents, Except.ok.injEq] at h
    subst h
    exact ⟨rfl, hcalls⟩
  | cons event events ih =>
    simp only [Main.runEvents] at h
    cases hstep : Main.handle E F state event with
    | error fault => rw [hstep] at h; exact absurd h (by simp)
    | ok next =>
      rw [hstep] at h
      obtain ⟨hed, hc⟩ := Main.handle_editor E F c0 state next event hstep hcalls
      obtain ⟨hed', hc'⟩ := ih next h hc
      exact ⟨hed'.trans hed, hc'⟩

/-- C4: whatever the process arguments, when `Main::Start` runs in editor mode after
`Main::Setup` it leaves the scene and camera node pointers as they were and makes no call
constructing a scene, a node, a camera or a viewport; when it runs in play mode on an object
without editor delegate, then up to and including `Main::Stop`, after any run of frame and
key-down events, no editor delegate is constructed and none of its hooks or script entry
points is invoked. -/
theorem C4_mode_object_graphs (E : SceneModel Scene) (F : FloatModel) (c : Context)
    (m : Main Scene) :
    ((Main.Setup c m).launchEditor_ = true →
      (Main.Start E c (Main.Setup c m)).2.scene_ = m.scene_ ∧
      (Main.Start E c (Main.Setup c m)).2.cameraNode_ = m.cameraNode_ ∧
      Main.ExtendsWithout Main.isPlayConstruction c (Main.Start E c (Main.Setup c m)).1) ∧
    ((Main.Setup c m).launchEditor_ = false → m.editor_ = none →
      Main.ExtendsWithout Main.isEditorCall c (Main.Start E c (Main.Setup c m)).1 ∧
      Main.ExtendsWithout Main.isEditorCall c
        (Main.Stop (Main.Start E c (Main.Setup c m)).1 (Main.Start E c (Main.Setup c m)).2) ∧
      ∀ (events : List Main.Event) (state : Context × Main Scene),
        Main.runEvents E F events (Main.Start E c (Main.Setup c m)) = .ok state →
        Main.ExtendsWithout Main.isEditorCall c (Main.Stop state.1 state.2)) := by
  obtain ⟨hed, hsc, hcam⟩ := Main.Setup_pointers c m
  refine ⟨?_, ?_⟩
  · intro hedit
    obtain ⟨h1, h2, h3⟩ := Main.Start_editor_mode E c (Main.Setup c m) hedit
    exact ⟨h1.trans hsc, h2.trans hcam, h3⟩
  · intro hplay hnone
    obtain ⟨h1, h2⟩ := Main.Start_play_mode E c (Main.Setup c m) hplay
    have hstop : ∀ state : Context × Main Scene, state.2.editor_ = none →
        Main.ExtendsWithout Main.isEditorCall c state.1 →
        Main.ExtendsWithout Main.isEditorCall c (Main.Stop state.1 state.2) := by
      intro state hnull hcalls
      unfold Main.Stop
      rw [hnull]
      exact hcalls
    have hstart : (Main.Start E c (Main.Setup c m)).2.editor_ = none := by
      rw [h1, hed, hnone]
    refine ⟨h2, hstop _ hstart h2, ?_⟩
    intro events state hrun
    obtain ⟨h3, h4⟩ := Main.runEvents_editor E F c events _ state hrun h2
    exact hstop state (h3.trans hstart) h4

/-- C4 at samples: started with `-edit` the application has no scene and no camera node
and has made no play-mode construction; started without arguments, it has made no editor
call after `Main::Stop`, also after a frame, a quicksave and a console toggle. -/
theorem C4_mode_object_graphs_witness :
    ((Main.Start Sample.sceneModel (Sample.context ["-edit"])
        (Main.Setup (Sample.context ["-edit"]) (Main.new false 0 0))).2.scene_
        = (Main.new false 0 0 : Main (List ℕ)).scene_ ∧
      (Main.Start Sample.sceneModel (Sample.context ["-edit"])
        (Main.Setup (Sample.context ["-edit"]) (Main.new false 0 0))).2.cameraNode_
        = (Main.new false 0 0 : Main (List ℕ)).cameraNode_ ∧
      Main.ExtendsWithout Main.isPlayConstruction (Sample.context ["-edit"])
        (Main.Start Sample.sceneModel (Sample.context ["-edit"])
          (Main.Setup (Sample.context ["-edit"]) (Main.new false 0 0))).1) ∧
    Main.ExtendsWithout Main.isEditorCall (Sample.context [])
      (Main.Stop
        (Main.Start Sample.sceneModel (Sample.context [])
          (Main.Setup (Sample.context []) (Main.new true 0 0))).1
        (Main.Start Sample.sceneModel (Sample.context [])
          (Main.Setup (Sample.context []) (Main.new true 0 0))).2) :=
  ⟨(C4_mode_object_graphs Sample.sceneModel Sample.single (Sample.context ["-edit"])
      (Main.new false 0 0)).1 (by decide),
   ((C4_mode_object_graphs Sample.sceneModel Sample.single (Sample.context [])
      (Main.new true 0 0)).2 (by decide) rfl).2.1⟩

/-- C5 at a sample: two argument lists with `-edit` at different positions, once repeated,
give the same flag. -/
theorem C5_edit_flag_witness :
    (Main.Setup (Sample.context ["-edit", "-x"]) (Main.new false 0 0 : Main (List ℕ))).launchEditor_
      = (Main.Setup (Sample.context ["-y", "-edit", "-edit"])
          (Main.new true 1 1 : Main (List ℕ))).launchEditor_ :=
  (C5_edit_flag (Sample.context ["-edit", "-x"]) (Main.new false 0 0)).2
    (Sample.context ["-y", "-edit", "-edit"]) (Main.new true 1 1) (by decide)

end Startup

/-! ## Hotkeys: quicksave and quickload, reload, and the keys in editor mode -/

section Hotkeys

variable {Scene : Type}

/-- `Main::Start` does not change the mode flag. -/
theorem Main.Start_launchEditor (E : SceneModel Scene) (c : Context) (m : Main Scene) :
    (Main.Start E c m).2.launchEditor_ = m.launchEditor_ := by
  cases hstyle : c.resources "UI/DefaultStyle.xml" with
  | none => rw [Main.Start_no_style E c m hstyle]
  | some style =>
    cases hmode : m.launchEditor_ with
    | true => rw [Main.Start_editor E c m style hstyle hmode]; exact hmode
    | false => rw [Main.Start_play E c m style hstyle hmode]; exact hmode

/-- The key-down handler on an object in editor mode without scene: the reload key does
nothing, the quicksave and quickload keys go through the null scene pointer. -/
theorem Main.KeyDown_editor_mode (E : SceneModel Scene) (c : Context) (m : Main Scene)
    (hedit : m.launchEditor_ = true) (hscene : m.scene_ = none) :
    Main.KeyDown E c m KEY_R = .ok (c, m) ∧
      Main.KeyDown E c m KEY_F6 = .error Fault.nullDereference ∧
      Main.KeyDown E c m KEY_F7 = .error Fault.nullDereference := by
  refine ⟨?_, ?_, ?_⟩
  · simp [Main.KeyDown, KEY_R, KEY_Q, hedit]
  · simp [Main.KeyDown, KEY_R, KEY_Q, KEY_F3, KEY_F6, hscene]
  · simp [Main.KeyDown, KEY_R, KEY_Q, KEY_F3, KEY_F6, KEY_F7, hscene]

/-- C7: in play mode, when the reload scene `Data/Scenes/Physics.xml` is not found, the
key-down handler for the reload key does not return: it goes through the null file
pointer. -/
theorem C7_reload_missing_resource_faults (E : SceneModel Scene) (c : Context) (m : Main Scene)
    (hplay : m.launchEditor_ = false)
    (hmissing : c.resources "Data/Scenes/Physics.xml" = none) :
    Main.KeyDown E c m KEY_R = .error Fault.nullDereference := by
  simp [Main.KeyDown, KEY_R, KEY_Q, hplay, hmissing]

/-- C7 at a sample: the application started in play mode in an environment that has the UI
style but not the reload scene. -/
theorem C7_reload_missing_resource_faults_witness :
    Main.KeyDown Sample.sceneModel (Sample.started Sample.styleOnlyContext).1
      (Sample.started Sample.styleOnlyContext).2 KEY_R = .error Fault.nullDereference :=
  C7_reload_missing_resource_faults Sample.sceneModel (Sample.started Sample.styleOnlyContext).1
    (Sample.started Sample.styleOnlyContext).2 rfl rfl

/-- C10: after `Main::Setup` with `-edit` among the arguments and `Main::Start`, on an
object that had no scene, the reload key does nothing, while the key-down handler for the
quicksave key and for the quickload key goes through the null scene pointer.  This holds
whether or not `Main::Start` finds the UI style; the handler is subscribed when it does. -/
theorem C10_editor_mode_hotkeys (E : SceneModel Scene) (c : Context) (m : Main Scene)
    (hedit : "-edit" ∈ c.arguments) (hfresh : m.scene_ = none) :
    Main.KeyDown E (Main.Start E c (Main.Setup c m)).1 (Main.Start E c (Main.Setup c m)).2 KEY_R
        = .ok (Main.Start E c (Main.Setup c m)) ∧
      Main.KeyDown E (Main.Start E c (Main.Setup c m)).1 (Main.Start E c (Main.Setup c m)).2
        KEY_F6 = .error Fault.nullDereference ∧
      Main.KeyDown E (Main.Start E c (Main.Setup c m)).1 (Main.Start E c (Main.Setup c m)).2
        KEY_F7 = .error Fault.nullDereference := by
  have hflag : (Main.Setup c m).launchEditor_ = true := (Main.Setup_launchEditor c m).mpr hedit
  have hmode : (Main.Start E c (Main.Setup c m)).2.launchEditor_ = true := by
    rw [Main.Start_launchEditor, hflag]
  have hnull : (Main.Start E c (Main.Setup c m)).2.scene_ = none := by
    rw [(Main.Start_editor_mode E c (Main.Setup c m) hflag).1, (Main.Setup_pointers c m).2.1,
      hfresh]
  exact Main.KeyDown_editor_mode E _ _ hmode hnull

/-- C10 at a sample: the application started with `-edit`. -/
theorem C10_editor_mode_hotkeys_witness :
    Main.KeyDown Sample.sceneModel (Sample.started (Sample.context ["-edit"])).1
        (Sample.started (Sample.context ["-edit"])).2 KEY_R
        = .ok (Sample.started (Sample.context ["-edit"])) ∧
      Main.KeyDown Sample.sceneModel (Sample.started (Sample.context ["-edit"])).1
        (Sample.started (Sample.context ["-edit"])).2 KEY_F6 = .error Fault.nullDereference ∧
      Main.KeyDown Sample.sceneModel (Sample.started (Sample.context ["-edit"])).1
        (Sample.started (Sample.context ["-edit"])).2 KEY_F7 = .error Fault.nullDereference :=
  C10_editor_mode_hotkeys Sample.sceneModel (Sample.context ["-edit"]) (Main.new true 400 1000)
    (by decide) rfl

end Hotkeys

/-! ## Camera translation -/

section Translation

variable {Scene : Type}

/-- Rounding to nearest with ties to even, on integers: opposite arguments round to
opposite values. -/
theorem Urho3D.roundHalfEven_int_neg (n d : ℤ) (hd : 0 < d) :
    (if 2 * ((-n) % d) < d then (-n) / d
      else if d < 2 * ((-n) % d) then (-n) / d + 1
      else if ((-n) / d) % 2 = 0 then (-n) / d else (-n) / d + 1)
    = -(if 2 * (n % d) < d then n / d
      else if d < 2 * (n % d) then n / d + 1
      else if (n / d) % 2 = 0 then n / d else n / d + 1) := by
  have h1 : n % d + d * (n / d) = n := Int.emod_add_ediv n d
  have h2 : 0 ≤ n % d := Int.emod_nonneg n (ne_of_gt hd)
  have h3 : n % d < d := Int.emod_lt_of_pos n hd
  generalize n / d = f at *
  generalize n % d = r at *
  by_cases hr : r = 0
  · have h : (-n) / d = -f ∧ (-n) % d = 0 := by
      rw [Int.ediv_emod_unique hd]
      subst hr
      refine ⟨?_, le_refl _, hd⟩
      rw [← h1]; ring
    rw [h.1, h.2, hr]
    split_ifs <;> omega
  · have h : (-n) / d = -f - 1 ∧ (-n) % d = d - r := by
      rw [Int.ediv_emod_unique hd]
      refine ⟨?_, by omega, by omega⟩
      rw [← h1]; ring
    rw [h.1, h.2]
    split_ifs <;> omega

/-- Rounding to the nearest integer is odd. -/
theorem Urho3D.roundHalfEven_neg (q : ℚ) : roundHalfEven (-q) = -roundHalfEven q := by
  unfold roundHalfEven
  simp only [Rat.neg_num, Rat.neg_den]
  exact roundHalfEven_int_neg q.num q.den (by exact_mod_cast q.den_pos)

/-- The binade of a number is that of its opposite. -/
theorem Urho3D.binadeExponent_neg (q : ℚ) (k : ℕ) :
    binadeExponent (-q) k = binadeExponent q k := by
  induction k with
  | zero => rfl
  | succ k ih => simp only [binadeExponent, abs_neg, ih]

/-- Single precision rounding is odd. -/
theorem Urho3D.binary32_neg (q : ℚ) : binary32 (-q) = -binary32 q := by
  unfold binary32
  simp only [binadeExponent_neg, neg_div, roundHalfEven_neg, Int.cast_neg, neg_mul]

/-- Under an odd rounding, zero rounds to zero. -/
theorem Urho3D.FloatModel.round_zero (F : FloatModel) (hodd : ∀ q, F.round (-q) = -F.round q) :
    F.round 0 = 0 := by
  have h := hodd 0
  rw [neg_zero] at h
  linarith

/-- Under an odd rounding, scaling the opposite vector gives the opposite vector. -/
theorem Urho3D.Vector3.scale_neg (F : FloatModel) (hodd : ∀ q, F.round (-q) = -F.round q)
    (a : Vector3) (s : ℚ) : a.neg.scale F s = (a.scale F s).neg := by
  simp only [Vector3.scale, Vector3.neg, FloatModel.mul, neg_mul, hodd]

/-- Under an odd rounding, rotating the opposite vector gives the opposite vector. -/
theorem Urho3D.Quaternion.rotate_neg (F : FloatModel) (hodd : ∀ q, F.round (-q) = -F.round q)
    (q : Quaternion) (a : Vector3) : q.rotate F a.neg = (q.rotate F a).neg := by
  have hsub : ∀ x y : ℚ, F.round (-x - -y) = -F.round (x - y) := by
    intro x y
    rw [← hodd]
    congr 1
    ring
  have hadd : ∀ x y : ℚ, F.round (-x + -y) = -F.round (x + y) := by
    intro x y
    rw [← hodd]
    congr 1
    ring
  simp only [Quaternion.rotate, Vector3.CrossProduct, Vector3.scale, Vector3.add, Vector3.neg,
    FloatModel.mul, FloatModel.sub, FloatModel.add, mul_neg, neg_mul, hodd, hsub, hadd]

/-- Adding a translation and then its opposite restores a representable position when the
first addition is exact. -/
theorem Urho3D.Vector3.add_add_neg (F : FloatModel) (p a : Vector3)
    (hp : p.Representable F) (hexact : p.SumExact F a) : (p.add F a).add F a.neg = p := by
  obtain ⟨hx, hy, hz⟩ := hp
  obtain ⟨ex, ey, ez⟩ := hexact
  cases p with
  | mk px py pz =>
    simp only [Vector3.add, Vector3.neg, FloatModel.add] at *
    rw [ex, ey, ez]
    simp only [add_neg_cancel_right, hx, hy, hz]

/-- The translations of opposite keys are opposite under an odd rounding. -/
theorem Main.keyTranslation_neg (F : FloatModel) (hodd : ∀ q, F.round (-q) = -F.round q)
    (input : Input) (m : Main Scene) (dt : ℚ) (axis : Vector3) :
    Main.keyTranslation F input m dt axis.neg = (Main.keyTranslation F input m dt axis).neg := by
  unfold Main.keyTranslation
  rw [Vector3.scale_neg F hodd, Quaternion.rotate_neg F hodd]

/-- The camera position after `Main::MoveCamera` with all four keys held: the four
translations added to the position in the order `W`, `S`, `A`, `D`. -/
theorem Main.MoveCamera_all_keys (F : FloatModel) (input : Input) (m : Main Scene) (dt : ℚ)
    (node : Node) (hnode : m.cameraNode_ = some node) (hfocus : input.focusElement = false)
    (hW : input.keyDown KEY_W = true) (hS : input.keyDown KEY_S = true)
    (hA : input.keyDown KEY_A = true) (hD : input.keyDown KEY_D = true) :
    (Main.MoveCamera F input m dt).cameraNode_.map Node.position_ =
      some ((((node.position_.add F (Main.keyTranslation F input m dt Vector3.FORWARD)).add F
        (Main.keyTranslation F input m dt Vector3.BACK)).add F
        (Main.keyTranslation F input m dt Vector3.LEFT)).add F
        (Main.keyTranslation F input m dt Vector3.RIGHT)) := by
  simp only [Main.MoveCamera, hnode, hfocus, hW, hS, hA, hD, if_true, Node.TranslateRelative,
    Node.SetRotation, Option.map, Main.keyTranslation, Main.lookRotation]
  rfl

/-- In exact arithmetic the camera position after `Main::MoveCamera` with all four keys held
equals the position before, for every time step, orientation and starting position. -/
theorem Main.MoveCamera_all_keys_exact (F : FloatModel) (hexact : ∀ q, F.round q = q)
    (input : Input) (m : Main Scene) (dt : ℚ) (node : Node)
    (hnode : m.cameraNode_ = some node) (hfocus : input.focusElement = false)
    (hW : input.keyDown KEY_W = true) (hS : input.keyDown KEY_S = true)
    (hA : input.keyDown KEY_A = true) (hD : input.keyDown KEY_D = true) :
    (Main.MoveCamera F input m dt).cameraNode_.map Node.position_ = some node.position_ := by
  have hodd : ∀ q, F.round (-q) = -F.round q := fun q => by rw [hexact, hexact]
  have hback : Vector3.BACK = Vector3.FORWARD.neg := by
    simp [Vector3.BACK, Vector3.FORWARD, Vector3.neg]
  have hright : Vector3.RIGHT = Vector3.LEFT.neg := by
    simp [Vector3.RIGHT, Vector3.LEFT, Vector3.neg]
  rw [Main.MoveCamera_all_keys F input m dt node hnode hfocus hW hS hA hD, hback, hright,
    Main.keyTranslation_neg F hodd, Main.keyTranslation_neg F hodd,
    Vector3.add_add_neg F _ _ ⟨hexact _, hexact _, hexact _⟩ ⟨hexact _, hexact _, hexact _⟩,
    Vector3.add_add_neg F _ _ ⟨hexact _, hexact _, hexact _⟩ ⟨hexact _, hexact _, hexact _⟩]

/-- C3, amended: with a camera node, no focused UI element and `W`, `A`, `S`, `D` all held,
under an odd float rounding (as round-to-nearest is) the translation of `S` is the opposite of
the translation of `W` and the translation of `D` the opposite of that of `A`; and when the
starting position is representable and the float additions of the `W` translation and of the
`A` translation to it are exact (as every addition is in exact arithmetic), the camera
position after `Main::MoveCamera` equals the position before. -/
theorem C3_opposite_keys_cancel (F : FloatModel) (input : Input) (m : Main Scene) (dt : ℚ)
    (node : Node) (hnode : m.cameraNode_ = some node) (hfocus : input.focusElement = false)
    (hW : input.keyDown KEY_W = true) (hS : input.keyDown KEY_S = true)
    (hA : input.keyDown KEY_A = true) (hD : input.keyDown KEY_D = true)
    (hodd : ∀ q, F.round (-q) = -F.round q)
    (hpos : node.position_.Representable F)
    (hforward : node.position_.SumExact F (Main.keyTranslation F input m dt Vector3.FORWARD))
    (hleft : node.position_.SumExact F (Main.keyTranslation F input m dt Vector3.LEFT)) :
    Main.keyTranslation F input m dt Vector3.BACK
        = (Main.keyTranslation F input m dt Vector3.FORWARD).neg ∧
      Main.keyTranslation F input m dt Vector3.RIGHT
        = (Main.keyTranslation F input m dt Vector3.LEFT).neg ∧
      (Main.MoveCamera F input m dt).cameraNode_.map Node.position_ = some node.position_ := by
  have hback : Vector3.BACK = Vector3.FORWARD.neg := by
    simp [Vector3.BACK, Vector3.FORWARD, Vector3.neg]
  have hright : Vector3.RIGHT = Vector3.LEFT.neg := by
    simp [Vector3.RIGHT, Vector3.LEFT, Vector3.neg]
  have hS' := Main.keyTranslation_neg F hodd input m dt Vector3.FORWARD
  have hD' := Main.keyTranslation_neg F hodd input m dt Vector3.LEFT
  rw [← hback] at hS'
  rw [← hright] at hD'
  refine ⟨hS', hD', ?_⟩
  rw [Main.MoveCamera_all_keys F input m dt node hnode hfocus hW hS hA hD, hS', hD',
    Vector3.add_add_neg F _ _ hpos hforward, Vector3.add_add_neg F _ _ hpos hleft]

/-- C3 at a sample: single precision, the camera at `(3, 5, -2)` looking forward, time step
`1/64`; the translations `5/16` along `z` and along `x` are added and taken back exactly. -/
theorem C3_opposite_keys_cancel_witness :
    Main.keyTranslation Sample.single (Sample.input false 0 0 [KEY_W, KEY_A, KEY_S, KEY_D])
        (Sample.cameraAt ⟨3, 5, -2⟩) (1 / 64) Vector3.BACK
        = (Main.keyTranslation Sample.single (Sample.input false 0 0 [KEY_W, KEY_A, KEY_S, KEY_D])
            (Sample.cameraAt ⟨3, 5, -2⟩) (1 / 64) Vector3.FORWARD).neg ∧
      Main.keyTranslation Sample.single (Sample.input false 0 0 [KEY_W, KEY_A, KEY_S, KEY_D])
        (Sample.cameraAt ⟨3, 5, -2⟩) (1 / 64) Vector3.RIGHT
        = (Main.keyTranslation Sample.single (Sample.input false 0 0 [KEY_W, KEY_A, KEY_S, KEY_D])
            (Sample.cameraAt ⟨3, 5, -2⟩) (1 / 64) Vector3.LEFT).neg ∧
      (Main.MoveCamera Sample.single (Sample.input false 0 0 [KEY_W, KEY_A, KEY_S, KEY_D])
        (Sample.cameraAt ⟨3, 5, -2⟩) (1 / 64)).cameraNode_.map Node.position_
        = some (⟨3, 5, -2⟩ : Vector3) :=
  C3_opposite_keys_cancel Sample.single (Sample.input false 0 0 [KEY_W, KEY_A, KEY_S, KEY_D])
    (Sample.cameraAt ⟨3, 5, -2⟩) (1 / 64) ⟨⟨3, 5, -2⟩, ⟨1, 0, 0, 0⟩, true⟩ rfl rfl
    (by decide) (by decide) (by decide) (by decide) binary32_neg (by decide!) (by decide!)
    (by decide!)

/-- C3 as stated fails in single precision.  With the camera at `(0, 5, 16777216)`, looking
forward, no mouse motion, time step `3/64` and all four keys held, `W` adds `15/16` to `z`,
which rounds back to `16777216`, and `S` then takes `15/16` off, which rounds to `16777215`:
the camera ends one unit behind.  With the camera at `z = 0.1f` and time step `1/64` it ends
at `z = 3355443/33554432`, one unit in the last place below `0.1f`. -/
theorem C3_counterexample :
    (Main.MoveCamera Sample.single (Sample.input false 0 0 [KEY_W, KEY_A, KEY_S, KEY_D])
        (Sample.cameraAt ⟨0, 5, 16777216⟩) (3 / 64)).cameraNode_.map Node.position_
        = some (⟨0, 5, 16777215⟩ : Vector3) ∧
      (Sample.cameraAt ⟨0, 5, 16777216⟩).cameraNode_.map Node.position_
        = some (⟨0, 5, 16777216⟩ : Vector3) ∧
      (Main.MoveCamera Sample.single (Sample.input false 0 0 [KEY_W, KEY_A, KEY_S, KEY_D])
        (Sample.cameraAt ⟨0, 5, 13421773 / 134217728⟩) (1 / 64)).cameraNode_.map Node.position_
        = some (⟨0, 5, 3355443 / 33554432⟩ : Vector3) := by
  refine ⟨by decide!, rfl, by decide!⟩

end Translation
